import Mathlib

/-!
Verification of the servinel daemon core against its specification.

The definitions below are a shallow embedding of the Rust sources:
`src/logs.rs`, `src/compose.rs`, `src/daemon/state.rs`,
`src/daemon/supervisor.rs` and `src/daemon/server.rs`.

Modelling conventions:
* `u32`/`u64`/`usize` become `Nat`; `i32` becomes `Int`; `SystemTime`
  becomes a `Nat` of seconds.  `f32` values are carried opaquely (as their
  bit pattern, a `Nat`): no verified property computes with them.
* `VecDeque` becomes a `List` whose head is the front (oldest element).
* `HashMap` becomes an association list whose list order stands for the
  map's iteration order.  Rust's `std::collections::HashMap` leaves the
  iteration order unspecified (it is *not* insertion order), so theorems
  that depend on iteration order quantify over well-formed association
  lists rather than over a fixed order.
* Fallible functions return `Except ServinelError`; side effects of the
  supervisor (signals sent, processes spawned) are returned explicitly.
-/

set_option maxHeartbeats 1000000

namespace Servinel

/-- Embedding of `LogStream` from `src/logs.rs`: which output stream a log
line came from. -/
inductive LogStream where
  | Stdout
  | Stderr
deriving Repr, DecidableEq

/-- Embedding of `LogEntry` from `src/logs.rs`. -/
structure LogEntry where
  timestamp : Nat
  stream : LogStream
  line : String
deriving Repr, DecidableEq

/-- Embedding of `LogBuffer` from `src/logs.rs`: the `VecDeque` is a list
whose head is the front (oldest entry). -/
structure LogBuffer where
  entries : List LogEntry
  capacity : Nat
deriving Repr, DecidableEq

namespace LogBuffer

/-- Embedding of `LogBuffer::new`. -/
def new (capacity : Nat) : LogBuffer :=
  { entries := [], capacity := capacity }

/-- Embedding of `LogBuffer::push`: when `len == capacity` the front
(oldest) entry is popped, then the new entry is pushed at the back. -/
def push (b : LogBuffer) (entry : LogEntry) : LogBuffer :=
  let es := if b.entries.length = b.capacity then b.entries.drop 1 else b.entries
  { b with entries := es ++ [entry] }

/-- Embedding of `LogBuffer::tail`: clamp `count` to the length, then skip
`len - count` entries from the front. -/
def tail (b : LogBuffer) (count : Nat) : List LogEntry :=
  let c := min count b.entries.length
  b.entries.drop (b.entries.length - c)

/-- Embedding of `LogBuffer::all`. -/
def all (b : LogBuffer) : List LogEntry :=
  b.entries

/-- Modelled from the spec: `LogBuffer.clear()` is listed among the buffer
operations in the data model (and is invoked by
`DaemonState::clear_service_logs`) but no `clear` method appears in
`src/logs.rs`; following the spec it empties the buffer. -/
def clear (b : LogBuffer) : LogBuffer :=
  { b with entries := [] }

/-- Folding `push` over a list: a sequence of pushes, oldest first. -/
def pushList (b : LogBuffer) (l : List LogEntry) : LogBuffer :=
  l.foldl push b

end LogBuffer

theorem LogBuffer.pushList_capacity (b : LogBuffer) (l : List LogEntry) :
    (b.pushList l).capacity = b.capacity := by
  induction l generalizing b with
  | nil => rfl
  | cons a l ih => simpa [LogBuffer.pushList, LogBuffer.push] using ih (b.push a)

/-- Re-taking the last `c` elements after appending commutes with taking
the last `c` elements of the whole concatenation. -/
theorem drop_refill (c : Nat) (xs ys : List LogEntry) :
    (xs.drop (xs.length - c) ++ ys).drop ((xs.drop (xs.length - c) ++ ys).length - c)
      = (xs ++ ys).drop ((xs ++ ys).length - c) := by
  have hm : xs.length - c ≤ xs.length := Nat.sub_le _ _
  have h1 : xs.drop (xs.length - c) ++ ys = (xs ++ ys).drop (xs.length - c) := by
    rw [List.drop_append_eq_append_drop, Nat.sub_eq_zero_of_le hm, List.drop_zero]
  rw [h1, List.drop_drop]
  congr 1
  simp only [List.length_drop, List.length_append]
  omega

/-- A single push on a buffer holding at most `c` entries keeps exactly the
last `c` elements of the extended stream. -/
theorem push_entries (c : Nat) (hc : 1 ≤ c) (es : List LogEntry) (hle : es.length ≤ c)
    (a : LogEntry) :
    LogBuffer.push ⟨es, c⟩ a
      = (⟨(es ++ [a]).drop ((es ++ [a]).length - c), c⟩ : LogBuffer) := by
  simp only [LogBuffer.push, LogBuffer.mk.injEq, and_true]
  by_cases h : es.length = c
  · have h1 : es ++ [a] = es ++ [a] := rfl
    have hlen : (es ++ [a]).length - c = 1 := by
      simp only [List.length_append, List.length_singleton]
      omega
    rw [hlen]
    have : (es ++ [a]).drop 1 = es.drop 1 ++ [a] := by
      rw [List.drop_append_eq_append_drop]
      have : 1 - es.length = 0 := by omega
      rw [this, List.drop_zero]
    rw [this]
    simp [h]
  · have hlt : es.length < c := lt_of_le_of_ne hle h
    have hlen : (es ++ [a]).length - c = 0 := by
      simp only [List.length_append, List.length_singleton]
      omega
    rw [hlen, List.drop_zero]
    simp [h]

/-- Pushing a whole list onto a buffer holding at most `c` entries keeps
exactly the last `c` elements of the concatenated stream. -/
theorem pushList_entries (c : Nat) (hc : 1 ≤ c) :
    ∀ (l es : List LogEntry), es.length ≤ c →
      (LogBuffer.pushList ⟨es, c⟩ l).entries = (es ++ l).drop ((es ++ l).length - c) := by
  intro l
  induction l with
  | nil =>
    intro es hle
    simp only [LogBuffer.pushList, List.foldl_nil, List.append_nil]
    rw [Nat.sub_eq_zero_of_le hle, List.drop_zero]
  | cons a l ih =>
    intro es hle
    have hstep := push_entries c hc es hle a
    have hlen2 : ((es ++ [a]).drop ((es ++ [a]).length - c)).length ≤ c := by
      simp only [List.length_drop, List.length_append, List.length_singleton]
      omega
    calc (LogBuffer.pushList ⟨es, c⟩ (a :: l)).entries
        = (LogBuffer.pushList (LogBuffer.push ⟨es, c⟩ a) l).entries := by
          simp [LogBuffer.pushList]
      _ = (LogBuffer.pushList ⟨(es ++ [a]).drop ((es ++ [a]).length - c), c⟩ l).entries := by
          rw [hstep]
      _ = ((es ++ [a]).drop ((es ++ [a]).length - c) ++ l).drop
            (((es ++ [a]).drop ((es ++ [a]).length - c) ++ l).length - c) := ih _ hlen2
      _ = ((es ++ [a]) ++ l).drop (((es ++ [a]) ++ l).length - c) := drop_refill c _ l
      _ = (es ++ a :: l).drop ((es ++ a :: l).length - c) := by
          simp

/-- C1: pushing any sequence of N entries into a `LogBuffer` of capacity
1000 leaves `min N 1000` entries, namely the last `min N 1000` pushed
entries in insertion order (the oldest entry is discarded when full). -/
theorem C1_logbuffer_push_fifo (l : List LogEntry) :
    ((LogBuffer.new 1000).pushList l).entries = l.drop (l.length - 1000) ∧
    ((LogBuffer.new 1000).pushList l).entries.length = min l.length 1000 := by
  have h := pushList_entries 1000 (by omega) l [] (by simp)
  have hnew : LogBuffer.new 1000 = (⟨[], 1000⟩ : LogBuffer) := rfl
  constructor
  · rw [hnew]
    simpa using h
  · rw [hnew]
    have h2 : (LogBuffer.pushList ⟨[], 1000⟩ l).entries = l.drop (l.length - 1000) := by
      simpa using h
    rw [h2]
    simp only [List.length_drop]
    omega

/-- C8: for every buffer and every n, `tail n` is the suffix of the entries
of length `min n len` (insertion order preserved); with `len ≤ n` it
returns all entries, with `n = 0` it returns nothing, and it is total. -/
theorem C8_tail_spec (b : LogBuffer) (n : Nat) :
    (b.tail n).length = min n b.entries.length ∧
    b.entries.take (b.entries.length - min n b.entries.length) ++ b.tail n = b.entries ∧
    (b.entries.length ≤ n → b.tail n = b.entries) ∧
    b.tail 0 = [] := by
  refine ⟨?_, ?_, ?_, ?_⟩
  · simp only [LogBuffer.tail, List.length_drop]
    omega
  · simp only [LogBuffer.tail]
    exact List.take_append_drop _ _
  · intro h
    simp only [LogBuffer.tail, Nat.min_eq_right h, Nat.sub_self, List.drop_zero]
  · simp only [LogBuffer.tail, Nat.zero_min, Nat.sub_zero, List.drop_length]

/-- A concrete log entry used to instantiate witnesses. -/
def sampleEntry (i : Nat) : LogEntry :=
  { timestamp := i, stream := LogStream.Stdout, line := "line" }

/-- Values of the f32 machine type, carried opaquely (as a bit pattern):
no verified property computes with them. -/
abbrev F32 := Nat

/-- Embedding of `ServiceMetrics` from `src/metrics.rs`. -/
structure ServiceMetrics where
  cpu : F32
  memory : Nat
  memory_total : Nat
deriving Repr, DecidableEq

/-- Embedding of `ServiceMetrics::default()` (the derived `Default`):
every field zero. -/
def ServiceMetrics.default : ServiceMetrics :=
  { cpu := 0, memory := 0, memory_total := 0 }

/-- Embedding of filesystem paths (`PathBuf`) as their component list. -/
abbrev Path := List String

/-- Embedding of `PathBuf::parent`: drop the last component; `none` for an
empty path. -/
def Path.parent (p : Path) : Option Path :=
  match p with
  | [] => none
  | _ => some p.dropLast

/-- Embedding of `ServinelError` from `src/error.rs`.  The `Io`, `Yaml`,
`Json` and `DaemonNotRunning` variants wrap foreign library errors or are
client-side only; no verified operation produces them, so they are
omitted. -/
inductive ServinelError where
  | ComposeNotFound (p : Path)
  | InvalidCompose (m : String)
  | AppNotFound (m : String)
  | ServiceNotFound (m : String)
  | ProfileNotFound (m : String)
  | Usage (m : String)
deriving Repr, DecidableEq

/-- Embedding of `ServiceStatus` from `src/daemon/state.rs`. -/
inductive ServiceStatus where
  | Starting
  | Running
  | Stopped
  | Unhealthy
  | Exited
deriving Repr, DecidableEq

/-- Embedding of `ServiceStatus::as_str`. -/
def ServiceStatus.as_str : ServiceStatus → String
  | .Starting => "starting"
  | .Running => "running"
  | .Stopped => "stopped"
  | .Unhealthy => "unhealthy"
  | .Exited => "exited"

/-- The guard `matches!(status, Running | Starting)` used by
`DaemonState::update_service_status`. -/
def ServiceStatus.isLive : ServiceStatus → Bool
  | .Running => true
  | .Starting => true
  | _ => false

/-- Embedding of `ServiceConfig` from `src/compose.rs`. -/
structure ServiceConfig where
  name : String
  command : String
  working_directory : Option Path
  restart : Option String
deriving Repr, DecidableEq

/-- Embedding of `ComposeFile` from `src/compose.rs`.  The `profiles`
`HashMap` is an association list in iteration order. -/
structure ComposeFile where
  app_name : String
  services : List ServiceConfig
  profiles : List (String × List String)
deriving Repr, DecidableEq

/-- Embedding of `HashMap::get` on an association list: the first entry
with the key, if any. -/
def alistGet {κ α : Type} [DecidableEq κ] (l : List (κ × α)) (k : κ) : Option α :=
  (l.find? (fun kv => decide (kv.1 = k))).map Prod.snd

/-- Embedding of `HashMap::contains_key`. -/
def alistContainsKey {κ α : Type} [DecidableEq κ] (l : List (κ × α)) (k : κ) : Bool :=
  l.any (fun kv => decide (kv.1 = k))

/-- Embedding of the `HashMap::get_mut`-then-mutate pattern: rewrite every
entry whose key matches (a real `HashMap` has at most one), leave the list
unchanged when the key is absent. -/
def alistModify {κ α : Type} [DecidableEq κ] (l : List (κ × α)) (k : κ) (f : α → α) :
    List (κ × α) :=
  l.map (fun kv => if kv.1 = k then (kv.1, f kv.2) else kv)

/-- Embedding of `HashMap::insert`: replace the entry in place when the key
is present, otherwise add it.  (A real `HashMap` leaves iteration order
unspecified; order-sensitive theorems quantify over permutations.) -/
def alistInsert {κ α : Type} [DecidableEq κ] (l : List (κ × α)) (k : κ) (v : α) :
    List (κ × α) :=
  if alistContainsKey l k then alistModify l k (fun _ => v) else l ++ [(k, v)]

/-- Embedding of `HashMap::remove` (the remaining map). -/
def alistRemove {κ α : Type} [DecidableEq κ] (l : List (κ × α)) (k : κ) :
    List (κ × α) :=
  l.filter (fun kv => !(decide (kv.1 = k)))

/-- Witness for C8 at a concrete three-entry buffer and n = 2. -/
theorem C8_tail_spec_witness :
    (((⟨[sampleEntry 0, sampleEntry 1, sampleEntry 2], 1000⟩ : LogBuffer).tail 2).length
        = min 2 (⟨[sampleEntry 0, sampleEntry 1, sampleEntry 2], 1000⟩ : LogBuffer).entries.length)
      ∧ ((⟨[sampleEntry 0, sampleEntry 1, sampleEntry 2], 1000⟩ : LogBuffer).entries.take
          ((⟨[sampleEntry 0, sampleEntry 1, sampleEntry 2], 1000⟩ : LogBuffer).entries.length
            - min 2 (⟨[sampleEntry 0, sampleEntry 1, sampleEntry 2], 1000⟩ : LogBuffer).entries.length)
          ++ (⟨[sampleEntry 0, sampleEntry 1, sampleEntry 2], 1000⟩ : LogBuffer).tail 2
          = (⟨[sampleEntry 0, sampleEntry 1, sampleEntry 2], 1000⟩ : LogBuffer).entries)
      ∧ ((⟨[sampleEntry 0, sampleEntry 1, sampleEntry 2], 1000⟩ : LogBuffer).entries.length ≤ 2
          → (⟨[sampleEntry 0, sampleEntry 1, sampleEntry 2], 1000⟩ : LogBuffer).tail 2
            = (⟨[sampleEntry 0, sampleEntry 1, sampleEntry 2], 1000⟩ : LogBuffer).entries)
      ∧ (⟨[sampleEntry 0, sampleEntry 1, sampleEntry 2], 1000⟩ : LogBuffer).tail 0 = [] :=
  C8_tail_spec ⟨[sampleEntry 0, sampleEntry 1, sampleEntry 2], 1000⟩ 2

/-- Embedding of `ServiceState` from `src/daemon/state.rs`.  `SystemTime`
is a `Nat` of seconds since the epoch. -/
structure ServiceState where
  config : ServiceConfig
  status : ServiceStatus
  pid : Option Nat
  started_at : Option Nat
  exit_code : Option Int
  logs : LogBuffer
  metrics : ServiceMetrics
deriving Repr, DecidableEq

/-- Embedding of `AppState` from `src/daemon/state.rs`.  The `services`
`HashMap` is an association list in iteration order; `service_order`
preserves declaration order from the compose file. -/
structure AppState where
  app_name : String
  compose_path : Path
  profiles : List (String × List String)
  services : List (String × ServiceState)
  service_order : List String
deriving Repr, DecidableEq

/-- Embedding of `DaemonState` from `src/daemon/state.rs`. -/
structure DaemonState where
  apps : List (String × AppState)
  system_cpu : F32
  system_memory_used : Nat
  system_memory_total : Nat
deriving Repr, DecidableEq

/-- Embedding of `DaemonState::default()` (the derived `Default`). -/
def DaemonState.empty : DaemonState :=
  { apps := [], system_cpu := 0, system_memory_used := 0, system_memory_total := 0 }

/-- The `LOG_BUFFER_CAPACITY` constant of `src/daemon/state.rs`. -/
def LOG_BUFFER_CAPACITY : Nat := 1000

namespace DaemonState

/-- Lookup of a service's state through both maps (not itself a source
function; names the double-`get` read pattern of the source). -/
def getService (st : DaemonState) (app service : String) : Option ServiceState :=
  (alistGet st.apps app).bind (fun a => alistGet a.services service)

/-- The shared `if let Some(app_state) = apps.get_mut(app) { if let
Some(service_state) = services.get_mut(service) { ... } }` pattern of every
`(app, service)`-keyed mutator in `src/daemon/state.rs`: mutate the
matching service of the matching app, do nothing when either is missing. -/
def modifyService (st : DaemonState) (app service : String)
    (f : ServiceState → ServiceState) : DaemonState :=
  { st with
    apps := alistModify st.apps app
      (fun a => { a with services := alistModify a.services service f }) }

/-- Embedding of `DaemonState::insert_app`.  The services `HashMap` built
by `collect()` is modelled in declaration order; a real `HashMap` may
iterate in any order, which order-sensitive theorems account for. -/
def insert_app (st : DaemonState) (compose : ComposeFile) (compose_path : Path) :
    DaemonState :=
  let service_order : List String := compose.services.map (·.name)
  let services : List (String × ServiceState) := compose.services.map (fun svc =>
    (svc.name,
      { status := ServiceStatus.Stopped
        pid := none
        started_at := none
        exit_code := none
        logs := LogBuffer.new LOG_BUFFER_CAPACITY
        metrics := ServiceMetrics.default
        config := svc }))
  let app : AppState :=
    { app_name := compose.app_name
      compose_path := compose_path
      profiles := compose.profiles
      services := services
      service_order := service_order }
  { st with apps := alistInsert st.apps compose.app_name app }

/-- Embedding of `DaemonState::remove_app`. -/
def remove_app (st : DaemonState) (app : String) : DaemonState × Option AppState :=
  ({ st with apps := alistRemove st.apps app }, alistGet st.apps app)

/-- Embedding of `DaemonState::list_apps`: the keys, in iteration order. -/
def list_apps (st : DaemonState) : List String :=
  st.apps.map Prod.fst

/-- Embedding of `DaemonState::update_service_status`: set the status and
clear `started_at` unless the new status is Running or Starting. -/
def update_service_status (st : DaemonState) (app service : String)
    (status : ServiceStatus) : DaemonState :=
  st.modifyService app service (fun s =>
    let s1 := { s with status := status }
    if status.isLive then s1 else { s1 with started_at := none })

/-- Embedding of `DaemonState::set_service_pid`. -/
def set_service_pid (st : DaemonState) (app service : String) (pid : Option Nat) :
    DaemonState :=
  st.modifyService app service (fun s => { s with pid := pid })

/-- Embedding of `DaemonState::set_service_start_time`. -/
def set_service_start_time (st : DaemonState) (app service : String)
    (time : Option Nat) : DaemonState :=
  st.modifyService app service (fun s => { s with started_at := time })

/-- Embedding of `DaemonState::set_exit_code`. -/
def set_exit_code (st : DaemonState) (app service : String) (code : Option Int) :
    DaemonState :=
  st.modifyService app service (fun s => { s with exit_code := code })

/-- Embedding of `DaemonState::push_log`. -/
def push_log (st : DaemonState) (app service : String) (entry : LogEntry) :
    DaemonState :=
  st.modifyService app service (fun s => { s with logs := s.logs.push entry })

/-- Embedding of `DaemonState::clear_service_logs` (which calls the
spec-modelled `LogBuffer.clear`). -/
def clear_service_logs (st : DaemonState) (app service : String) : DaemonState :=
  st.modifyService app service (fun s => { s with logs := s.logs.clear })

/-- Embedding of `DaemonState::set_metrics`. -/
def set_metrics (st : DaemonState) (app service : String) (m : ServiceMetrics) :
    DaemonState :=
  st.modifyService app service (fun s => { s with metrics := m })

/-- Embedding of `DaemonState::set_system_metrics`. -/
def set_system_metrics (st : DaemonState) (cpu : F32) (used total : Nat) :
    DaemonState :=
  { st with system_cpu := cpu, system_memory_used := used, system_memory_total := total }

/-- Well-formedness carried by real `HashMap`s: keys are unique, at both
levels. -/
def wf (st : DaemonState) : Prop :=
  (st.apps.map Prod.fst).Nodup ∧ ∀ a ∈ st.apps, (a.2.services.map Prod.fst).Nodup

instance (st : DaemonState) : Decidable st.wf := by
  unfold wf
  infer_instance

end DaemonState

/-- Embedding of `uptime_seconds` from `src/daemon/state.rs`, with the
clock passed explicitly: `elapsed()` fails (giving `None`) when the start
time is in the future. -/
def uptime_seconds (now : Nat) (started_at : Option Nat) : Option Nat :=
  match started_at with
  | none => none
  | some start => if start ≤ now then some (now - start) else none

/-- Embedding of `str::trim`: strip leading and trailing whitespace.
Expressed over the character list, which the kernel can evaluate
(Lean's own `String.trim` does not reduce). -/
def strTrim (s : String) : String :=
  String.mk (((s.data.dropWhile Char.isWhitespace).reverse.dropWhile
    Char.isWhitespace).reverse)

/-- Embedding of `str::is_empty`. -/
def strIsEmpty (s : String) : Bool :=
  decide (s.data = [])

/-- Embedding of `str::starts_with`. -/
def strStartsWith (s pre : String) : Bool :=
  decide (s.data.take pre.data.length = pre.data)

/-- Embedding of the per-service loop of `validate_compose` in
`src/compose.rs`: `seen` is the `HashSet` of names inserted so far. -/
def checkServiceNames : List ServiceConfig → List String → Except ServinelError Unit
  | [], _ => .ok ()
  | svc :: rest, seen =>
    if strIsEmpty (strTrim svc.name) then
      .error (.InvalidCompose "service name cannot be empty")
    else if svc.name ∈ seen then
      .error (.InvalidCompose ("duplicate service name: " ++ svc.name))
    else
      checkServiceNames rest (svc.name :: seen)

/-- Embedding of the inner loop of the profile check of `validate_compose`:
every referenced service must be a declared name. -/
def checkProfileServices (profile : String) (service_names : List String) :
    List String → Except ServinelError Unit
  | [] => .ok ()
  | svc :: rest =>
    if svc ∈ service_names then
      checkProfileServices profile service_names rest
    else
      .error (.InvalidCompose
        ("profile '" ++ profile ++ "' references unknown service '" ++ svc ++ "'"))

/-- Embedding of the outer profile loop of `validate_compose`. -/
def checkProfiles (service_names : List String) :
    List (String × List String) → Except ServinelError Unit
  | [] => .ok ()
  | (profile, svcs) :: rest => do
    checkProfileServices profile service_names svcs
    checkProfiles service_names rest

/-- Embedding of `validate_compose` from `src/compose.rs`. -/
def validate_compose (c : ComposeFile) : Except ServinelError Unit :=
  if strIsEmpty (strTrim c.app_name) then
    .error (.InvalidCompose "app_name is required")
  else do
    checkServiceNames c.services []
    checkProfiles (c.services.map (·.name)) c.profiles

/-- Embedding of `ServiceSelector` from `src/ipc/protocol.rs`. -/
inductive ServiceSelector where
  | All
  | Service (name : String)
  | Services (names : List String)
  | Profile (name : String)
deriving Repr, DecidableEq

/-- Embedding of `ServiceSnapshot` from `src/ipc/protocol.rs`. -/
structure ServiceSnapshot where
  name : String
  status : String
  pid : Option Nat
  uptime_secs : Option Nat
  exit_code : Option Int
  metrics : ServiceMetrics
deriving Repr, DecidableEq

/-- Embedding of `AppSnapshot` from `src/ipc/protocol.rs`. -/
structure AppSnapshot where
  app_name : String
  services : List ServiceSnapshot
deriving Repr, DecidableEq

/-- Embedding of `StatusSnapshot` from `src/ipc/protocol.rs`. -/
structure StatusSnapshot where
  apps : List AppSnapshot
  system_cpu : F32
  system_memory_used : Nat
  system_memory_total : Nat
deriving Repr, DecidableEq

namespace Daemon

/-- Embedding of `Daemon::resolve_app` from `src/daemon/server.rs`, acting
on the daemon's state value. -/
def resolve_app (st : DaemonState) (app : Option String) :
    Except ServinelError String :=
  match app with
  | some a => .ok a
  | none =>
    let apps := st.list_apps
    if apps.length = 1 then
      .ok apps.headI
    else
      .error (.Usage "Multiple apps running, use --app")

/-- Embedding of `Daemon::resolve_services` from `src/daemon/server.rs`:
note that the `All` arm collects `app_state.services.keys()`, the
`HashMap`'s iteration order. -/
def resolve_services (st : DaemonState) (app : String) (selector : ServiceSelector) :
    Except ServinelError (List String) :=
  match alistGet st.apps app with
  | none => .error (.AppNotFound app)
  | some app_state =>
    let resolved : Except ServinelError (List String) :=
      match selector with
      | .All => .ok (app_state.services.map Prod.fst)
      | .Service name => .ok [name]
      | .Services names => .ok names
      | .Profile profile =>
        match alistGet app_state.profiles profile with
        | none => .error (.ProfileNotFound profile)
        | some l => .ok l
    match resolved with
    | .error e => .error e
    | .ok services =>
      let known := app_state.services.map Prod.fst
      match services.find? (fun name => !(decide (name ∈ known))) with
      | some name => .error (.ServiceNotFound name)
      | none => .ok services

/-- Embedding of `build_snapshot` from `src/daemon/server.rs`, with the
clock passed explicitly for the `uptime_secs` derivation. -/
def build_snapshot (now : Nat) (app_state : AppState) (services : List String) :
    AppSnapshot :=
  { app_name := app_state.app_name
    services := services.filterMap (fun name =>
      (alistGet app_state.services name).map (fun service =>
        { name := service.config.name
          status := service.status.as_str
          pid := service.pid
          uptime_secs := uptime_seconds now service.started_at
          exit_code := service.exit_code
          metrics := service.metrics })) }

/-- Embedding of `Daemon::status` from `src/daemon/server.rs`: with `app`
omitted the selector must be `All` and every app is snapshotted (in the
`HashMap`'s iteration order); otherwise the one app is resolved and
snapshotted. -/
def status (now : Nat) (st : DaemonState) (app : Option String)
    (selector : ServiceSelector) : Except ServinelError StatusSnapshot :=
  match app with
  | none =>
    match selector with
    | .All =>
      .ok { apps := st.apps.map (fun a => build_snapshot now a.2 (a.2.services.map Prod.fst))
            system_cpu := st.system_cpu
            system_memory_used := st.system_memory_used
            system_memory_total := st.system_memory_total }
    | _ => .error (.Usage "--app is required for profiles or specific services")
  | some app_name =>
    match resolve_services st app_name selector with
    | .error e => .error e
    | .ok services =>
      match alistGet st.apps app_name with
      | none => .error (.AppNotFound app_name)
      | some app_state =>
        .ok { apps := [build_snapshot now app_state services]
              system_cpu := st.system_cpu
              system_memory_used := st.system_memory_used
              system_memory_total := st.system_memory_total }

end Daemon

/-- The `ServiceKey` alias of `src/daemon/supervisor.rs`. -/
abbrev ServiceKey := String × String

/-- Embedding of `ServiceRuntime` from `src/daemon/supervisor.rs`: of the
child handle only the OS pid (`child.id()`) is observable here, and the
broadcast sender is carried as an opaque channel identifier. -/
structure ServiceRuntime where
  child_pid : Option Nat
  log_tx : Nat
deriving Repr, DecidableEq

/-- The supervisor's `runtimes` table, a `HashMap` keyed by
`(app, service)` modelled as an association list. -/
abbrev Runtimes := List (ServiceKey × ServiceRuntime)

/-- Information about one `Command::spawn` performed by `start_service`. -/
structure SpawnInfo where
  shell_command : String
  workdir : Path
deriving Repr, DecidableEq

/-- Observable side effects of one supervisor call: the pids whose process
group received `SIGKILL` (via `libc::kill(-pid, SIGKILL)`), in order, and
the spawn performed, if any. -/
structure SupervisorEffects where
  killed_groups : List Nat
  spawned : Option SpawnInfo
deriving Repr, DecidableEq

/-- Rendering of a path for interpolation into the shell command
(`workdir.display()`). -/
def Path.display (p : Path) : String :=
  String.intercalate "/" p

/-- The `final_command` construction of `Supervisor::start_service`:
prefix `cd <workdir> && ` and, unless the user command already begins with
`exec `, also `exec `. -/
def final_command (command : String) (workdir : Path) : String :=
  if strStartsWith (strTrim command) "exec " then
    "cd " ++ workdir.display ++ " && " ++ command
  else
    "cd " ++ workdir.display ++ " && exec " ++ command

/-- Per-call environment of `start_service` supplied by the OS: the
process CWD (`std::env::current_dir`), the new child's pid (`child.id()`),
a fresh broadcast-channel identifier, and the clock
(`SystemTime::now`). -/
structure StartEnv where
  current_dir : Path
  child_pid : Option Nat
  fresh_tx : Nat
  now : Nat
deriving Repr, DecidableEq

namespace Supervisor

/-- Embedding of `Supervisor::start_service` from
`src/daemon/supervisor.rs`, step for step: (1) read command, workdir and
recorded pid from the state (erroring when app or service is unknown);
(2) if a pid was recorded, SIGKILL its process group — note this happens
before the idempotency check; (3) if a runtime already exists for the key,
return with no further effect; (4-7) build the shell command, spawn (pipe
setup and spawn I/O failure are outside the model) and insert the runtime;
(8) write status=Running, the new pid, the start time and a cleared exit
code back into the state. -/
def start_service (env : StartEnv) (st : DaemonState) (runtimes : Runtimes)
    (app service : String) :
    Except ServinelError (DaemonState × Runtimes × SupervisorEffects) :=
  match alistGet st.apps app with
  | none => .error (.AppNotFound app)
  | some app_state =>
    match alistGet app_state.services service with
    | none => .error (.ServiceNotFound service)
    | some svc_state =>
      let base_dir := app_state.compose_path.parent.getD env.current_dir
      let workdir := svc_state.config.working_directory.getD base_dir
      let command := svc_state.config.command
      let kills : List Nat :=
        match svc_state.pid with
        | some p => [p]
        | none => []
      if alistContainsKey runtimes (app, service) then
        .ok (st, runtimes, { killed_groups := kills, spawned := none })
      else
        let cmd := final_command command workdir
        let runtimes' := runtimes ++
          [((app, service), { child_pid := env.child_pid, log_tx := env.fresh_tx })]
        let st := st.update_service_status app service ServiceStatus.Running
        let st := st.set_service_pid app service env.child_pid
        let st := st.set_service_start_time app service (some env.now)
        let st := st.set_exit_code app service none
        .ok (st, runtimes',
          { killed_groups := kills
            spawned := some { shell_command := cmd, workdir := workdir } })

/-- Embedding of `Supervisor::stop_service` from
`src/daemon/supervisor.rs`: read the recorded pid (absent app or service
reads as `None`), SIGKILL its group if present, remove the runtime entry,
then write status=Stopped and clear pid, start time and exit code.  The
function never fails. -/
def stop_service (st : DaemonState) (runtimes : Runtimes) (app service : String) :
    DaemonState × Runtimes × SupervisorEffects :=
  let pid := ((alistGet st.apps app).bind
    (fun a => alistGet a.services service)).bind (fun s => s.pid)
  let kills : List Nat :=
    match pid with
    | some p => [p]
    | none => []
  let runtimes' := alistRemove runtimes (app, service)
  let st := st.update_service_status app service ServiceStatus.Stopped
  let st := st.set_service_pid app service none
  let st := st.set_service_start_time app service none
  let st := st.set_exit_code app service none
  (st, runtimes', { killed_groups := kills, spawned := none })

end Supervisor

section AlistLemmas

variable {κ α : Type} [DecidableEq κ]

theorem alistGet_modify_self (l : List (κ × α)) (k : κ) (f : α → α) :
    alistGet (alistModify l k f) k = (alistGet l k).map f := by
  induction l with
  | nil => rfl
  | cons kv rest ih =>
    by_cases h : kv.1 = k
    · simp [alistGet, alistModify, List.find?_cons, h]
    · simp only [alistGet, alistModify, List.map_cons, if_neg h] at ih ⊢
      rw [List.find?_cons_of_neg _ (by simpa using h), List.find?_cons_of_neg _ (by simpa using h)]
      exact ih

theorem alistGet_eq_none_of_not_mem (l : List (κ × α)) (k : κ)
    (h : k ∉ l.map Prod.fst) : alistGet l k = none := by
  simp only [alistGet, Option.map_eq_none', List.find?_eq_none]
  intro kv hkv
  simp only [decide_eq_true_eq]
  intro hk
  exact h (List.mem_map.mpr ⟨kv, hkv, hk⟩)

theorem alistModify_of_get_none (l : List (κ × α)) (k : κ) (f : α → α)
    (h : alistGet l k = none) : alistModify l k f = l := by
  induction l with
  | nil => rfl
  | cons kv rest ih =>
    simp only [alistGet, Option.map_eq_none', List.find?_eq_none] at h
    have hk : ¬ kv.1 = k := by
      have := h kv (List.mem_cons_self kv rest)
      simpa using this
    have hrest : alistGet rest k = none := by
      simp only [alistGet, Option.map_eq_none', List.find?_eq_none]
      intro x hx
      exact h x (List.mem_cons_of_mem kv hx)
    simp only [alistModify, List.map_cons, if_neg hk]
    rw [show List.map (fun kv => if kv.1 = k then (kv.1, f kv.2) else kv) rest
          = alistModify rest k f from rfl, ih hrest]

theorem alistModify_of_fixed (l : List (κ × α)) (k : κ) (f : α → α) (v : α)
    (hnd : (l.map Prod.fst).Nodup) (hget : alistGet l k = some v) (hfix : f v = v) :
    alistModify l k f = l := by
  induction l with
  | nil => simp [alistGet] at hget
  | cons kv rest ih =>
    simp only [List.map_cons, List.nodup_cons] at hnd
    by_cases h : kv.1 = k
    · have hv : v = kv.2 := by
        simp [alistGet, List.find?_cons, h] at hget
        exact hget.symm
      have hrest : alistGet rest k = none := by
        apply alistGet_eq_none_of_not_mem
        rw [← h]
        exact hnd.1
      simp only [alistModify, List.map_cons, if_pos h]
      rw [hv] at hfix
      rw [show List.map (fun kv => if kv.1 = k then (kv.1, f kv.2) else kv) rest
            = alistModify rest k f from rfl, alistModify_of_get_none rest k f hrest, hfix]
    · have hget' : alistGet rest k = some v := by
        simp only [alistGet] at hget ⊢
        rwa [List.find?_cons_of_neg _ (by simpa using h)] at hget
      simp only [alistModify, List.map_cons, if_neg h]
      rw [show List.map (fun kv => if kv.1 = k then (kv.1, f kv.2) else kv) rest
            = alistModify rest k f from rfl, ih hnd.2 hget']

theorem alistModify_all (p : κ × α → Bool) (l : List (κ × α)) (k : κ) (f : α → α)
    (hf : ∀ kv ∈ l, p kv = true → p (kv.1, f kv.2) = true)
    (h : l.all p = true) : (alistModify l k f).all p = true := by
  simp only [alistModify, List.all_eq_true] at h ⊢
  intro x hx
  rw [List.mem_map] at hx
  obtain ⟨kv, hkv, hxeq⟩ := hx
  subst hxeq
  by_cases hk : kv.1 = k
  · simpa [hk] using hf kv hkv (h kv hkv)
  · simpa [hk] using h kv hkv

theorem alistInsert_all (q : α → Bool) (l : List (κ × α)) (k : κ) (v : α)
    (hv : q v = true) (h : l.all (fun kv => q kv.2) = true) :
    (alistInsert l k v).all (fun kv => q kv.2) = true := by
  unfold alistInsert
  split
  · exact alistModify_all _ l k _ (fun kv _ _ => hv) h
  · simp only [List.all_append, h, Bool.true_and, List.all_cons, List.all_nil,
      Bool.and_true]
    exact hv

theorem alistRemove_all (p : κ × α → Bool) (l : List (κ × α)) (k : κ)
    (h : l.all p = true) : (alistRemove l k).all p = true := by
  simp only [List.all_eq_true] at h ⊢
  intro x hx
  exact h x (List.mem_of_mem_filter hx)

end AlistLemmas

/-- Invariant 2 of the spec's data model, decidably: a service whose status
is outside {Running, Starting} has no recorded start time. -/
def serviceOk (s : ServiceState) : Bool :=
  s.status.isLive || decide (s.started_at = none)

/-- `serviceOk` over all services of one app. -/
def appOk (a : AppState) : Bool :=
  a.services.all (fun s => serviceOk s.2)

/-- `serviceOk` over the whole state store. -/
def startedAtInvB (st : DaemonState) : Bool :=
  st.apps.all (fun a => appOk a.2)

/-- Whether the optional service carries no start time (vacuously true when
the lookup failed). -/
def startedAtCleared : Option ServiceState → Bool
  | none => true
  | some s => decide (s.started_at = none)

theorem getService_modifyService (st : DaemonState) (app service : String)
    (f : ServiceState → ServiceState) :
    (st.modifyService app service f).getService app service
      = (st.getService app service).map f := by
  unfold DaemonState.getService DaemonState.modifyService
  rw [alistGet_modify_self]
  cases h : alistGet st.apps app with
  | none => rfl
  | some a =>
    simp only [Option.map_some']
    exact alistGet_modify_self a.services service f

theorem modifyService_of_getService_none (st : DaemonState) (app service : String)
    (f : ServiceState → ServiceState) (hwf : st.wf)
    (h : st.getService app service = none) :
    st.modifyService app service f = st := by
  unfold DaemonState.getService at h
  unfold DaemonState.modifyService
  cases happ : alistGet st.apps app with
  | none =>
    rw [alistModify_of_get_none st.apps app _ happ]
  | some a =>
    rw [happ] at h
    have hfix : (fun a : AppState => { a with services := alistModify a.services service f }) a
        = a := by
      simp only
      rw [alistModify_of_get_none a.services service f h]
    rw [alistModify_of_fixed st.apps app _ a hwf.1 happ hfix]

theorem modifyService_inv (st : DaemonState) (app service : String)
    (f : ServiceState → ServiceState)
    (hf : ∀ s, serviceOk s = true → serviceOk (f s) = true)
    (h : startedAtInvB st = true) :
    startedAtInvB (st.modifyService app service f) = true := by
  unfold startedAtInvB at h
  show (List.all (alistModify st.apps app
      (fun a => { a with services := alistModify a.services service f }))
      fun a => appOk a.2) = true
  apply alistModify_all _ _ _ _ _ h
  intro kv _ hok
  simp only [appOk] at hok
  show (List.all (alistModify kv.2.services service f) fun s => serviceOk s.2) = true
  apply alistModify_all _ _ _ _ _ hok
  intro kv2 _ hok2
  exact hf kv2.2 hok2

theorem insert_app_inv (st : DaemonState) (compose : ComposeFile) (path : Path)
    (h : startedAtInvB st = true) :
    startedAtInvB (st.insert_app compose path) = true := by
  unfold startedAtInvB at h
  show (List.all (alistInsert st.apps compose.app_name
      { app_name := compose.app_name
        compose_path := path
        profiles := compose.profiles
        services := compose.services.map (fun svc =>
          (svc.name,
            { status := ServiceStatus.Stopped, pid := none, started_at := none,
              exit_code := none, logs := LogBuffer.new LOG_BUFFER_CAPACITY,
              metrics := ServiceMetrics.default, config := svc }))
        service_order := compose.services.map (fun s => s.name) })
      fun a => appOk a.2) = true
  apply alistInsert_all appOk st.apps _ _ _ h
  show (List.all (compose.services.map (fun svc =>
      ((svc.name : String),
        ({ status := ServiceStatus.Stopped, pid := none, started_at := none,
           exit_code := none, logs := LogBuffer.new LOG_BUFFER_CAPACITY,
           metrics := ServiceMetrics.default, config := svc } : ServiceState))))
      fun s => serviceOk s.2) = true
  rw [List.all_eq_true]
  intro x hx
  rw [List.mem_map] at hx
  obtain ⟨svc, _, rfl⟩ := hx
  rfl

/-- Concrete fixtures used by witnesses and counterexamples. -/
def cfgApi : ServiceConfig :=
  { name := "api", command := "sleep 5", working_directory := none, restart := none }

def cfgWorker : ServiceConfig :=
  { name := "worker", command := "sleep 7", working_directory := none, restart := none }

def composeWeb : ComposeFile :=
  { app_name := "web", services := [cfgApi], profiles := [] }

/-- A state holding the single registered app "web" with the single
stopped service "api", as produced by `insert_app`. -/
def stWeb : DaemonState :=
  DaemonState.empty.insert_app composeWeb ["tmp", "servinel-compose.yaml"]

/-- The service state `insert_app` creates for `cfgApi`. -/
def cfgApi_svc : ServiceState :=
  { config := cfgApi
    status := ServiceStatus.Stopped
    pid := none
    started_at := none
    exit_code := none
    logs := LogBuffer.new LOG_BUFFER_CAPACITY
    metrics := ServiceMetrics.default }

/-- C4 counterexample: from a legitimate state satisfying invariant 2, the
state-store operation `set_service_start_time` with a `Some` value sets
`started_at` on a service whose status is Stopped, so it is not the case
that after any state-store operation every service with status outside
{Running, Starting} has `started_at = None`. -/
theorem C4_counterexample :
    startedAtInvB stWeb = true ∧
    (stWeb.set_service_start_time "web" "api" (some 5)).getService "web" "api"
      = some { cfgApi_svc with started_at := some 5 } ∧
    startedAtInvB (stWeb.set_service_start_time "web" "api" (some 5)) = false := by
  exact ⟨rfl, rfl, rfl⟩

/-- C4 (amended): `update_service_status` clears `started_at` whenever the
new status is not Running and not Starting, and every state-store operation
other than `set_service_start_time` preserves the invariant that services
with status outside {Running, Starting} have no start time;
`set_service_start_time` preserves it when passed `None`. -/
theorem C4_update_status_clears_started_at (st : DaemonState) (app service : String)
    (status : ServiceStatus) (pid : Option Nat) (code : Option Int) (entry : LogEntry)
    (m : ServiceMetrics) (cpu : F32) (used total : Nat) (compose : ComposeFile)
    (path : Path) (other : String)
    (hinv : startedAtInvB st = true) :
    (status.isLive = false →
      startedAtCleared
        ((st.update_service_status app service status).getService app service) = true) ∧
    startedAtInvB (st.update_service_status app service status) = true ∧
    startedAtInvB (st.set_service_pid app service pid) = true ∧
    startedAtInvB (st.set_exit_code app service code) = true ∧
    startedAtInvB (st.push_log app service entry) = true ∧
    startedAtInvB (st.clear_service_logs app service) = true ∧
    startedAtInvB (st.set_metrics app service m) = true ∧
    startedAtInvB (st.set_system_metrics cpu used total) = true ∧
    startedAtInvB (st.insert_app compose path) = true ∧
    startedAtInvB (st.remove_app other).1 = true ∧
    startedAtInvB (st.set_service_start_time app service none) = true := by
  refine ⟨?_, ?_, ?_, ?_, ?_, ?_, ?_, ?_, ?_, ?_, ?_⟩
  · intro hlive
    unfold DaemonState.update_service_status
    rw [getService_modifyService]
    cases st.getService app service with
    | none => rfl
    | some s => simp [startedAtCleared, hlive]
  · apply modifyService_inv _ _ _ _ _ hinv
    intro s _
    cases hl : status.isLive <;> simp [serviceOk, hl]
  · exact modifyService_inv _ _ _ _ (fun s h => h) hinv
  · exact modifyService_inv _ _ _ _ (fun s h => h) hinv
  · exact modifyService_inv _ _ _ _ (fun s h => h) hinv
  · exact modifyService_inv _ _ _ _ (fun s h => h) hinv
  · exact modifyService_inv _ _ _ _ (fun s h => h) hinv
  · exact hinv
  · exact insert_app_inv _ _ _ hinv
  · exact alistRemove_all _ _ _ hinv
  · apply modifyService_inv _ _ _ _ _ hinv
    intro s _
    simp [serviceOk]

/-- Witness for the amended C4 at the concrete one-app state. -/
theorem C4_update_status_clears_started_at_witness :
    startedAtInvB stWeb = true ∧
    (startedAtInvB (stWeb.update_service_status "web" "api" ServiceStatus.Exited) = true ∧
     startedAtInvB (stWeb.set_service_pid "web" "api" (some 7)) = true) :=
  ⟨rfl,
    (C4_update_status_clears_started_at stWeb "web" "api" ServiceStatus.Exited (some 7)
      (some 0) (sampleEntry 0) ServiceMetrics.default 0 0 0 composeWeb [] "web" rfl).2.1,
    (C4_update_status_clears_started_at stWeb "web" "api" ServiceStatus.Exited (some 7)
      (some 0) (sampleEntry 0) ServiceMetrics.default 0 0 0 composeWeb [] "web" rfl).2.2.1⟩

/-- C10: every `(app, service)`-keyed mutator of `DaemonState` leaves the
state unchanged (and reports nothing) when the named app or service does
not exist. -/
theorem C10_missing_key_frame (st : DaemonState) (app service : String)
    (status : ServiceStatus) (pid : Option Nat) (time : Option Nat) (code : Option Int)
    (entry : LogEntry) (m : ServiceMetrics)
    (hwf : st.wf) (h : st.getService app service = none) :
    st.update_service_status app service status = st ∧
    st.set_service_pid app service pid = st ∧
    st.set_service_start_time app service time = st ∧
    st.set_exit_code app service code = st ∧
    st.push_log app service entry = st ∧
    st.set_metrics app service m = st ∧
    st.clear_service_logs app service = st :=
  ⟨modifyService_of_getService_none st app service _ hwf h,
   modifyService_of_getService_none st app service _ hwf h,
   modifyService_of_getService_none st app service _ hwf h,
   modifyService_of_getService_none st app service _ hwf h,
   modifyService_of_getService_none st app service _ hwf h,
   modifyService_of_getService_none st app service _ hwf h,
   modifyService_of_getService_none st app service _ hwf h⟩

/-- Witness for C10: mutating the unknown service "ghost" of the
registered app "web" changes nothing. -/
theorem C10_missing_key_frame_witness :
    stWeb.update_service_status "web" "ghost" ServiceStatus.Running = stWeb ∧
    stWeb.set_service_pid "web" "ghost" (some 3) = stWeb ∧
    stWeb.set_service_start_time "web" "ghost" (some 4) = stWeb ∧
    stWeb.set_exit_code "web" "ghost" (some 1) = stWeb ∧
    stWeb.push_log "web" "ghost" (sampleEntry 1) = stWeb ∧
    stWeb.set_metrics "web" "ghost" ServiceMetrics.default = stWeb ∧
    stWeb.clear_service_logs "web" "ghost" = stWeb :=
  C10_missing_key_frame stWeb "web" "ghost" ServiceStatus.Running (some 3) (some 4)
    (some 1) (sampleEntry 1) ServiceMetrics.default (by decide) rfl

/-- The app state `insert_app` records for `composeWeb`. -/
def appWeb : AppState :=
  { app_name := "web"
    compose_path := ["tmp", "servinel-compose.yaml"]
    profiles := []
    services := [("api", cfgApi_svc)]
    service_order := ["api"] }

/-- C6: `resolve_app(None)` returns the unique registered app name when
exactly one app is registered, and errors with "Multiple apps running, use
--app" when zero or several apps are registered. -/
theorem C6_resolve_app_none (st : DaemonState) (name : String) (a : AppState) :
    (st.apps = [(name, a)] → Daemon.resolve_app st none = .ok name) ∧
    (st.apps.length ≠ 1 →
      Daemon.resolve_app st none = .error (.Usage "Multiple apps running, use --app")) := by
  constructor
  · intro h
    simp [Daemon.resolve_app, DaemonState.list_apps, h]
  · intro h
    have hl : ¬ (st.list_apps.length = 1) := by
      simpa [DaemonState.list_apps] using h
    simp [Daemon.resolve_app, if_neg hl]

/-- Witness for C6: one registered app resolves to it; an empty daemon
errors. -/
theorem C6_resolve_app_none_witness :
    Daemon.resolve_app stWeb none = .ok "web" ∧
    Daemon.resolve_app DaemonState.empty none
      = .error (.Usage "Multiple apps running, use --app") :=
  ⟨(C6_resolve_app_none stWeb "web" appWeb).1 rfl,
   (C6_resolve_app_none DaemonState.empty "web" appWeb).2 (by decide)⟩

/-- C7: a Status request with `app = None` and a selector other than `All`
returns an error (hence no snapshot); with `app = None` and selector `All`
it returns a snapshot covering every registered app. -/
theorem C7_status_none_selector (now : Nat) (st : DaemonState)
    (selector : ServiceSelector) :
    (selector ≠ ServiceSelector.All →
      Daemon.status now st none selector
        = .error (.Usage "--app is required for profiles or specific services")) ∧
    (∃ snap, Daemon.status now st none ServiceSelector.All = .ok snap ∧
      snap.apps.length = st.apps.length ∧
      snap.apps.map (fun a => a.app_name) = st.apps.map (fun kv => kv.2.app_name)) := by
  constructor
  · intro h
    cases selector with
    | All => exact absurd rfl h
    | Service n => rfl
    | Services ns => rfl
    | Profile p => rfl
  · refine ⟨_, rfl, ?_, ?_⟩
    · simp [Daemon.status]
    · simp [Daemon.status, List.map_map, Daemon.build_snapshot, Function.comp]

/-- Witness for C7 at the one-app state. -/
theorem C7_status_none_selector_witness :
    Daemon.status 0 stWeb none (ServiceSelector.Service "api")
      = .error (.Usage "--app is required for profiles or specific services") ∧
    (∃ snap, Daemon.status 0 stWeb none ServiceSelector.All = .ok snap ∧
      snap.apps.length = stWeb.apps.length ∧
      snap.apps.map (fun a => a.app_name) = stWeb.apps.map (fun kv => kv.2.app_name)) :=
  ⟨(C7_status_none_selector 0 stWeb (ServiceSelector.Service "api")).1 (by decide),
   (C7_status_none_selector 0 stWeb ServiceSelector.All).2⟩

theorem checkServiceNames_ok :
    ∀ (l : List ServiceConfig) (seen : List String),
      checkServiceNames l seen = .ok () →
      (∀ s ∈ l, strIsEmpty (strTrim s.name) = false) ∧
      (l.map (fun s => s.name)).Nodup ∧
      (∀ s ∈ l, s.name ∉ seen) := by
  intro l
  induction l with
  | nil => exact fun seen _ => ⟨by simp, by simp, by simp⟩
  | cons svc rest ih =>
    intro seen h
    simp only [checkServiceNames] at h
    by_cases h1 : strIsEmpty (strTrim svc.name) = true
    · rw [if_pos h1] at h
      exact absurd h (by simp)
    · rw [if_neg h1] at h
      by_cases h2 : svc.name ∈ seen
      · rw [if_pos h2] at h
        exact absurd h (by simp)
      · rw [if_neg h2] at h
        obtain ⟨ha, hb, hc⟩ := ih (svc.name :: seen) h
        refine ⟨?_, ?_, ?_⟩
        · intro s hs
          rcases List.mem_cons.mp hs with rfl | hs
          · simpa using h1
          · exact ha s hs
        · rw [List.map_cons, List.nodup_cons]
          refine ⟨?_, hb⟩
          intro hmem
          rw [List.mem_map] at hmem
          obtain ⟨s, hsmem, heq⟩ := hmem
          exact hc s hsmem (heq ▸ List.mem_cons_self _ _)
        · intro s hs
          rcases List.mem_cons.mp hs with rfl | hs
          · exact h2
          · exact fun hmem => hc s hs (List.mem_cons_of_mem _ hmem)

theorem checkServiceNames_shape :
    ∀ (l : List ServiceConfig) (seen : List String),
      checkServiceNames l seen = .ok () ∨
      ∃ m, checkServiceNames l seen = .error (.InvalidCompose m) := by
  intro l
  induction l with
  | nil => exact fun _ => .inl rfl
  | cons svc rest ih =>
    intro seen
    simp only [checkServiceNames]
    by_cases h1 : strIsEmpty (strTrim svc.name) = true
    · rw [if_pos h1]
      exact .inr ⟨_, rfl⟩
    · rw [if_neg h1]
      by_cases h2 : svc.name ∈ seen
      · rw [if_pos h2]
        exact .inr ⟨_, rfl⟩
      · rw [if_neg h2]
        exact ih _

theorem checkProfileServices_ok (profile : String) (names : List String) :
    ∀ l, checkProfileServices profile names l = .ok () → ∀ n ∈ l, n ∈ names := by
  intro l
  induction l with
  | nil => simp
  | cons svc rest ih =>
    intro h n hn
    simp only [checkProfileServices] at h
    by_cases h1 : svc ∈ names
    · rw [if_pos h1] at h
      rcases List.mem_cons.mp hn with rfl | hn
      · exact h1
      · exact ih h n hn
    · rw [if_neg h1] at h
      exact absurd h (by simp)

theorem checkProfileServices_shape (profile : String) (names : List String) :
    ∀ l, checkProfileServices profile names l = .ok () ∨
      ∃ m, checkProfileServices profile names l = .error (.InvalidCompose m) := by
  intro l
  induction l with
  | nil => exact .inl rfl
  | cons svc rest ih =>
    simp only [checkProfileServices]
    by_cases h1 : svc ∈ names
    · rw [if_pos h1]
      exact ih
    · rw [if_neg h1]
      exact .inr ⟨_, rfl⟩

theorem checkProfiles_ok (names : List String) :
    ∀ ps, checkProfiles names ps = .ok () →
      ∀ p ∈ ps, ∀ n ∈ p.2, n ∈ names := by
  intro ps
  induction ps with
  | nil => simp
  | cons pr rest ih =>
    intro h p hp n hn
    rw [show checkProfiles names (pr :: rest)
        = (checkProfileServices pr.1 names pr.2 >>= fun _ => checkProfiles names rest)
      from rfl] at h
    cases h1 : checkProfileServices pr.1 names pr.2 with
    | error e =>
      rw [h1] at h
      exact absurd h (by simp [Bind.bind, Except.bind])
    | ok u =>
      cases u
      rw [h1] at h
      have h2 : checkProfiles names rest = .ok () := by
        simpa [Bind.bind, Except.bind] using h
      rcases List.mem_cons.mp hp with rfl | hp
      · exact checkProfileServices_ok p.1 names p.2 h1 n hn
      · exact ih h2 p hp n hn

theorem checkProfiles_shape (names : List String) :
    ∀ ps, checkProfiles names ps = .ok () ∨
      ∃ m, checkProfiles names ps = .error (.InvalidCompose m) := by
  intro ps
  induction ps with
  | nil => exact .inl rfl
  | cons pr rest ih =>
    rw [show checkProfiles names (pr :: rest)
        = (checkProfileServices pr.1 names pr.2 >>= fun _ => checkProfiles names rest)
      from rfl]
    rcases checkProfileServices_shape pr.1 names pr.2 with h1 | ⟨m, h1⟩
    · rw [h1]
      rcases ih with h2 | ⟨m, h2⟩
      · rw [show ((Except.ok () : Except ServinelError Unit) >>= fun _ =>
            checkProfiles names rest) = checkProfiles names rest from rfl, h2]
        exact .inl rfl
      · rw [show ((Except.ok () : Except ServinelError Unit) >>= fun _ =>
            checkProfiles names rest) = checkProfiles names rest from rfl, h2]
        exact .inr ⟨m, rfl⟩
    · rw [h1]
      exact .inr ⟨m, rfl⟩

theorem strTrim_of_empty : strIsEmpty (strTrim "") = true := rfl

theorem validate_compose_shape (c : ComposeFile) :
    validate_compose c = .ok () ∨
    ∃ m, validate_compose c = .error (.InvalidCompose m) := by
  unfold validate_compose
  by_cases h0 : strIsEmpty (strTrim c.app_name) = true
  · rw [if_pos h0]
    exact .inr ⟨_, rfl⟩
  · rw [if_neg h0]
    rcases checkServiceNames_shape c.services [] with h1 | ⟨m, h1⟩
    · show (checkServiceNames c.services [] >>= fun _ =>
        checkProfiles (c.services.map (fun s => s.name)) c.profiles) = _ ∨ _
      rw [h1]
      rcases checkProfiles_shape (c.services.map (fun s => s.name)) c.profiles
        with h2 | ⟨m, h2⟩
      · rw [show ((Except.ok () : Except ServinelError Unit) >>= fun _ =>
            checkProfiles (c.services.map (fun s => s.name)) c.profiles)
            = checkProfiles (c.services.map (fun s => s.name)) c.profiles from rfl, h2]
        exact .inl rfl
      · rw [show ((Except.ok () : Except ServinelError Unit) >>= fun _ =>
            checkProfiles (c.services.map (fun s => s.name)) c.profiles)
            = checkProfiles (c.services.map (fun s => s.name)) c.profiles from rfl, h2]
        exact .inr ⟨m, rfl⟩
    · show (checkServiceNames c.services [] >>= fun _ =>
        checkProfiles (c.services.map (fun s => s.name)) c.profiles) = _ ∨ _
      rw [h1]
      exact .inr ⟨m, rfl⟩

/-- C9: a manifest the validator accepts has a non-empty app name,
non-empty pairwise-distinct service names, and profile references only to
declared services; a manifest violating any of these is rejected with an
`InvalidCompose` error. -/
theorem C9_validate_compose (c : ComposeFile) :
    (validate_compose c = .ok () →
      c.app_name ≠ "" ∧ (∀ s ∈ c.services, s.name ≠ "") ∧
      (c.services.map (fun s => s.name)).Nodup ∧
      (∀ p ∈ c.profiles, ∀ n ∈ p.2, n ∈ c.services.map (fun s => s.name))) ∧
    (¬(c.app_name ≠ "" ∧ (∀ s ∈ c.services, s.name ≠ "") ∧
        (c.services.map (fun s => s.name)).Nodup ∧
        (∀ p ∈ c.profiles, ∀ n ∈ p.2, n ∈ c.services.map (fun s => s.name))) →
      ∃ m, validate_compose c = .error (.InvalidCompose m)) := by
  have hok : validate_compose c = .ok () →
      c.app_name ≠ "" ∧ (∀ s ∈ c.services, s.name ≠ "") ∧
      (c.services.map (fun s => s.name)).Nodup ∧
      (∀ p ∈ c.profiles, ∀ n ∈ p.2, n ∈ c.services.map (fun s => s.name)) := by
    intro h
    unfold validate_compose at h
    by_cases h0 : strIsEmpty (strTrim c.app_name) = true
    · rw [if_pos h0] at h
      exact absurd h (by simp)
    · rw [if_neg h0] at h
      rw [show (do
          checkServiceNames c.services []
          checkProfiles (c.services.map (fun s => s.name)) c.profiles)
        = (checkServiceNames c.services [] >>= fun _ =>
            checkProfiles (c.services.map (fun s => s.name)) c.profiles) from rfl] at h
      cases h1 : checkServiceNames c.services [] with
      | error e =>
        rw [h1] at h
        exact absurd h (by simp [Bind.bind, Except.bind])
      | ok u =>
        cases u
        rw [h1] at h
        have h2 : checkProfiles (c.services.map (fun s => s.name)) c.profiles
            = .ok () := by
          simpa [Bind.bind, Except.bind] using h
        obtain ⟨ha, hb, _⟩ := checkServiceNames_ok c.services [] h1
        refine ⟨?_, ?_, hb, checkProfiles_ok _ c.profiles h2⟩
        · intro heq
          rw [heq] at h0
          exact h0 strTrim_of_empty
        · intro s hs heq
          have hf := ha s hs
          rw [heq, strTrim_of_empty] at hf
          cases hf
  refine ⟨hok, ?_⟩
  intro hnot
  rcases validate_compose_shape c with hv | ⟨m, hv⟩
  · exact absurd (hok hv) hnot
  · exact ⟨m, hv⟩

/-- A two-service manifest with one profile, accepted by the validator. -/
def composeFull : ComposeFile :=
  { app_name := "web"
    services := [cfgApi, cfgWorker]
    profiles := [("backend", ["api", "worker"])] }

/-- Witness for C9 at the concrete accepted manifest. -/
theorem C9_validate_compose_witness :
    validate_compose composeFull = .ok () ∧
    (composeFull.app_name ≠ "" ∧ (∀ s ∈ composeFull.services, s.name ≠ "") ∧
      (composeFull.services.map (fun s => s.name)).Nodup ∧
      (∀ p ∈ composeFull.profiles, ∀ n ∈ p.2,
        n ∈ composeFull.services.map (fun s => s.name))) :=
  ⟨rfl, (C9_validate_compose composeFull).1 rfl⟩

theorem alistGet_remove_self {κ α : Type} [DecidableEq κ] (l : List (κ × α)) (k : κ) :
    alistGet (alistRemove l k) k = none := by
  apply alistGet_eq_none_of_not_mem
  intro hmem
  rw [List.mem_map] at hmem
  obtain ⟨kv, hkv, heq⟩ := hmem
  have := List.of_mem_filter hkv
  simp only [Bool.not_eq_true', decide_eq_false_iff_not] at this
  exact this heq

/-- The combined effect on the touched service of the four state writes
performed at the end of `start_service`. -/
theorem getService_start_writes (st : DaemonState) (app service : String)
    (pid : Option Nat) (now : Nat) :
    ((((st.update_service_status app service ServiceStatus.Running).set_service_pid
        app service pid).set_service_start_time app service
        (some now)).set_exit_code app service none).getService app service
      = (st.getService app service).map (fun s =>
          { s with status := ServiceStatus.Running, pid := pid,
                   started_at := some now, exit_code := none }) := by
  unfold DaemonState.update_service_status DaemonState.set_service_pid
    DaemonState.set_service_start_time DaemonState.set_exit_code
  rw [getService_modifyService, getService_modifyService, getService_modifyService,
    getService_modifyService]
  cases st.getService app service with
  | none => rfl
  | some s => rfl

/-- The combined effect on the touched service of the four state writes
performed at the end of `stop_service`. -/
theorem getService_stop_writes (st : DaemonState) (app service : String) :
    ((((st.update_service_status app service ServiceStatus.Stopped).set_service_pid
        app service none).set_service_start_time app service
        none).set_exit_code app service none).getService app service
      = (st.getService app service).map (fun s =>
          { s with status := ServiceStatus.Stopped, pid := none,
                   started_at := none, exit_code := none }) := by
  unfold DaemonState.update_service_status DaemonState.set_service_pid
    DaemonState.set_service_start_time DaemonState.set_exit_code
  rw [getService_modifyService, getService_modifyService, getService_modifyService,
    getService_modifyService]
  cases st.getService app service with
  | none => rfl
  | some s => rfl

/-- `start_service` on a key whose runtime already exists: it returns
success, leaves the state and the supervisor table untouched and spawns
nothing, but it has already SIGKILLed the process group of the recorded
pid (the kill in step 2 precedes the idempotency check of step 3). -/
theorem start_service_existing (env : StartEnv) (st : DaemonState)
    (runtimes : Runtimes) (app service : String) (s : ServiceState)
    (hget : st.getService app service = some s)
    (hrt : alistContainsKey runtimes (app, service) = true) :
    Supervisor.start_service env st runtimes app service
      = .ok (st, runtimes,
          { killed_groups := match s.pid with | some p => [p] | none => []
            spawned := none }) := by
  unfold DaemonState.getService at hget
  cases happ : alistGet st.apps app with
  | none =>
    rw [happ] at hget
    cases hget
  | some a =>
    rw [happ] at hget
    have hget2 : alistGet a.services service = some s := hget
    unfold Supervisor.start_service
    simp only [happ, hget2, hrt, if_true]

/-- A concrete start environment: the spawned child gets pid 42. -/
def envA : StartEnv :=
  { current_dir := [], child_pid := some 42, fresh_tx := 0, now := 100 }

/-- The "api" service as it stands after a successful start with pid 42 at
time 100. -/
def svcApiRunning : ServiceState :=
  { config := cfgApi
    status := ServiceStatus.Running
    pid := some 42
    started_at := some 100
    exit_code := none
    logs := LogBuffer.new 1000
    metrics := ServiceMetrics.default }

/-- `stWeb` after the first successful `start_service("web", "api")`. -/
def stWebRun : DaemonState :=
  { apps := [("web", { appWeb with services := [("api", svcApiRunning)] })]
    system_cpu := 0
    system_memory_used := 0
    system_memory_total := 0 }

/-- The supervisor table after that first start. -/
def rtWebRun : Runtimes :=
  [(("web", "api"), { child_pid := some 42, log_tx := 0 })]

/-- C2 counterexample: starting "api" from the fresh one-app state spawns a
child with pid 42 and records it; the second `start_service` on the same
key returns success and reshapes nothing, but it SIGKILLs process group 42
— the recorded pid of the running child — because the kill of step 2
precedes the runtimes check of step 3.  So the second call does affect the
running child. -/
theorem C2_counterexample :
    Supervisor.start_service envA stWeb [] "web" "api"
      = .ok (stWebRun, rtWebRun,
          { killed_groups := []
            spawned := some { shell_command := "cd tmp && exec sleep 5"
                              workdir := ["tmp"] } }) ∧
    stWebRun.getService "web" "api" = some svcApiRunning ∧
    svcApiRunning.pid = some 42 ∧
    Supervisor.start_service envA stWebRun rtWebRun "web" "api"
      = .ok (stWebRun, rtWebRun, { killed_groups := [42], spawned := none }) ∧
    ([42] : List Nat) ≠ [] :=
  ⟨rfl, rfl, rfl, rfl, by decide⟩

/-- C2 (amended): starting a registered service twice without an
intervening exit leaves exactly one child in the supervisor table with
status=Running and the first spawn's pid, start time and cleared exit
code; the second call returns success without reshaping state (no new
spawn, no change to the recorded pid, started_at or exit_code) — but it
first sends SIGKILL to the process group of the recorded pid, killing the
running child. -/
theorem C2_start_twice (env1 env2 : StartEnv) (st : DaemonState)
    (runtimes : Runtimes) (app service : String) (s : ServiceState) (p : Nat)
    (hget : st.getService app service = some s)
    (hrt : alistContainsKey runtimes (app, service) = false)
    (hpid : env1.child_pid = some p) :
    ∃ st1 rt1 eff1,
      Supervisor.start_service env1 st runtimes app service = .ok (st1, rt1, eff1) ∧
      eff1.spawned ≠ none ∧
      st1.getService app service
        = some { s with status := ServiceStatus.Running, pid := some p,
                        started_at := some env1.now, exit_code := none } ∧
      (rt1.filter (fun kv => decide (kv.1 = (app, service)))).length = 1 ∧
      Supervisor.start_service env2 st1 rt1 app service
        = .ok (st1, rt1, { killed_groups := [p], spawned := none }) := by
  have hget0 := hget
  unfold DaemonState.getService at hget0
  cases happ : alistGet st.apps app with
  | none =>
    rw [happ] at hget0
    cases hget0
  | some a =>
    rw [happ] at hget0
    have hsvc : alistGet a.services service = some s := hget0
    refine ⟨((((st.update_service_status app service ServiceStatus.Running).set_service_pid
        app service env1.child_pid).set_service_start_time app service
        (some env1.now)).set_exit_code app service none),
      runtimes ++ [((app, service),
        { child_pid := env1.child_pid, log_tx := env1.fresh_tx })],
      { killed_groups := match s.pid with | some q => [q] | none => []
        spawned := some { shell_command := final_command s.config.command
                            (s.config.working_directory.getD
                              (a.compose_path.parent.getD env1.current_dir))
                          workdir := s.config.working_directory.getD
                            (a.compose_path.parent.getD env1.current_dir) } },
      ?_, ?_, ?_, ?_, ?_⟩
    · unfold Supervisor.start_service
      simp [happ, hsvc, hrt]
    · simp
    · rw [getService_start_writes, hget, hpid]
      rfl
    · rw [List.filter_append]
      have hall : ∀ kv ∈ runtimes, ¬(decide (kv.1 = (app, service)) = true) := by
        have h := hrt
        unfold alistContainsKey at h
        rw [List.any_eq_false] at h
        exact h
      have hnil : runtimes.filter (fun kv => decide (kv.1 = (app, service))) = [] := by
        rw [List.filter_eq_nil_iff]
        exact hall
      rw [hnil]
      simp
    · have hgs : ((((st.update_service_status app service
          ServiceStatus.Running).set_service_pid app service
          env1.child_pid).set_service_start_time app service
          (some env1.now)).set_exit_code app service none).getService app service
          = some { s with status := ServiceStatus.Running, pid := some p,
                          started_at := some env1.now, exit_code := none } := by
        rw [getService_start_writes, hget, hpid]
        rfl
      have hrt2 : alistContainsKey (runtimes ++ [((app, service),
          { child_pid := env1.child_pid, log_tx := env1.fresh_tx })])
          (app, service) = true := by
        unfold alistContainsKey
        rw [List.any_append]
        simp
      exact start_service_existing env2 _ _ app service _ hgs hrt2

/-- Witness for the amended C2 at the fresh one-app state. -/
theorem C2_start_twice_witness :
    ∃ st1 rt1 eff1,
      Supervisor.start_service envA stWeb [] "web" "api" = .ok (st1, rt1, eff1) ∧
      eff1.spawned ≠ none ∧
      st1.getService "web" "api"
        = some { cfgApi_svc with status := ServiceStatus.Running, pid := some 42,
                                 started_at := some envA.now, exit_code := none } ∧
      (rt1.filter (fun kv => decide (kv.1 = ("web", "api")))).length = 1 ∧
      Supervisor.start_service envA st1 rt1 "web" "api"
        = .ok (st1, rt1, { killed_groups := [42], spawned := none }) :=
  C2_start_twice envA envA stWeb [] "web" "api" cfgApi_svc 42 rfl rfl rfl

/-- C5: after `stop_service` on a registered service the service state has
status=Stopped with pid, started_at and exit_code cleared, its runtime
entry is gone from the supervisor table, nothing is spawned, and when no
pid was recorded beforehand no kill signal is issued. -/
theorem C5_stop_service (st : DaemonState) (runtimes : Runtimes)
    (app service : String) (s : ServiceState)
    (hget : st.getService app service = some s) :
    ((Supervisor.stop_service st runtimes app service).1.getService app service
        = some { s with status := ServiceStatus.Stopped, pid := none,
                        started_at := none, exit_code := none }) ∧
    alistGet (Supervisor.stop_service st runtimes app service).2.1 (app, service)
      = none ∧
    (Supervisor.stop_service st runtimes app service).2.2.spawned = none ∧
    (s.pid = none →
      (Supervisor.stop_service st runtimes app service).2.2.killed_groups = []) := by
  refine ⟨?_, ?_, rfl, ?_⟩
  · show ((((st.update_service_status app service ServiceStatus.Stopped).set_service_pid
        app service none).set_service_start_time app service none).set_exit_code
        app service none).getService app service = _
    rw [getService_stop_writes, hget]
    rfl
  · exact alistGet_remove_self runtimes (app, service)
  · intro hpid
    have h2 : (alistGet st.apps app).bind (fun a => alistGet a.services service)
        = some s := hget
    show (match ((alistGet st.apps app).bind
        (fun a => alistGet a.services service)).bind (fun s => s.pid) with
      | some p => [p]
      | none => ([] : List Nat)) = []
    rw [h2]
    simp [hpid]

/-- Witness for C5: stopping the never-started "api" service clears its
state, removes the (stale) runtime entry and kills nothing. -/
theorem C5_stop_service_witness :
    ((Supervisor.stop_service stWeb rtWebRun "web" "api").1.getService "web" "api"
        = some { cfgApi_svc with status := ServiceStatus.Stopped, pid := none,
                                 started_at := none, exit_code := none }) ∧
    alistGet (Supervisor.stop_service stWeb rtWebRun "web" "api").2.1 ("web", "api")
      = none ∧
    (Supervisor.stop_service stWeb rtWebRun "web" "api").2.2.spawned = none ∧
    (cfgApi_svc.pid = none →
      (Supervisor.stop_service stWeb rtWebRun "web" "api").2.2.killed_groups = []) :=
  C5_stop_service stWeb rtWebRun "web" "api" cfgApi_svc rfl

/-- The "worker" service as freshly registered. -/
def cfgWorker_svc : ServiceState :=
  { config := cfgWorker
    status := ServiceStatus.Stopped
    pid := none
    started_at := none
    exit_code := none
    logs := LogBuffer.new LOG_BUFFER_CAPACITY
    metrics := ServiceMetrics.default }

/-- The app of `composeFull` as registered by `insert_app`, with the
services `HashMap` iterating in the order `[worker, api]`.  Rust's
`HashMap` leaves iteration order unspecified — it is some arbitrary
permutation of the inserted keys, unrelated to `service_order` — so this
is a legitimate in-memory shape of the registered app. -/
def appWebHash : AppState :=
  { app_name := "web"
    compose_path := ["tmp", "servinel-compose.yaml"]
    profiles := [("backend", ["api", "worker"])]
    services := [("worker", cfgWorker_svc), ("api", cfgApi_svc)]
    service_order := ["api", "worker"] }

/-- The daemon state holding `appWebHash`. -/
def stWebHash : DaemonState :=
  { apps := [("web", appWebHash)]
    system_cpu := 0
    system_memory_used := 0
    system_memory_total := 0 }

/-- C3 (code bug): `resolve_services` with the `All` selector returns
`app_state.services.keys()` — the `HashMap`'s iteration order — and never
consults `service_order`, the field that preserves declaration order.  On
an app declared `[api, worker]` whose map iterates `[worker, api]` it
returns `[worker, api]`, not the declaration order. -/
theorem C3_resolve_all_hash_order :
    (appWebHash.services.map Prod.fst).Perm appWebHash.service_order ∧
    appWebHash.service_order = ["api", "worker"] ∧
    Daemon.resolve_services stWebHash "web" ServiceSelector.All
      = .ok ["worker", "api"] ∧
    Daemon.resolve_services stWebHash "web" ServiceSelector.All
      ≠ .ok appWebHash.service_order := by
  refine ⟨by decide, rfl, rfl, ?_⟩
  intro h
  rw [show Daemon.resolve_services stWebHash "web" ServiceSelector.All
      = .ok ["worker", "api"] from rfl,
    show appWebHash.service_order = ["api", "worker"] from rfl] at h
  have h2 : (["worker", "api"] : List String) = ["api", "worker"] := Except.ok.inj h
  simp at h2

end Servinel
